import Mathlib

/-!
Verification of `scripts/download_kfda_foods.py` (Bodii repository).

The script downloads food-nutrition records from a paginated HTTP API,
normalizes each raw item, deduplicates by `foodCd`, and emits the result.
We shallowly embed the pure core of the script:

* `safe_float`        — the tolerant numeric parser (`safe_float` in the source);
* `parse_food_item`   — per-item normalization (`parse_food_item`);
* `deduplicate_foods` — first-occurrence deduplication by `foodCd`;
* `runFrom` / `download_all_foods` — the pagination/retry loop of
  `download_all_foods`, driven by a script of fetch outcomes (one outcome per
  call of `fetch_page`), recording requested page numbers and sleeps as an
  event trace.

Numeric model: every number the script stores passes through Python
`round(x, 2)`, so stored values are exact multiples of 1/100.  We represent
them as integer hundredths (`ℤ`): the record value `52.0` is `5200`,
`900.0` is `90000`, `3.14` is `314`.  `float(...)` of a finite decimal
literal is modelled exactly as a pair `(m, d)` of value `m / 10^d`, and
`round(·, 2)` as integer division with ties to even on the exact value.
Python strings are Lean `String`s manipulated through their character lists.
-/

/-- Python whitespace characters recognised by `str.strip` and `\s` (ASCII). -/
def isPySpace (c : Char) : Bool :=
  c = ' ' || c = '\t' || c = '\n' || c = '\r' || c = '\x0b' || c = '\x0c'

/-- Model of Python `str.strip()`: drop whitespace at both ends. -/
def pyStrip (s : String) : String :=
  ⟨((s.data.dropWhile isPySpace).reverse.dropWhile isPySpace).reverse⟩

/-- Model of Python `str.replace(",", "")`: remove every comma. -/
def removeCommas (s : String) : String :=
  ⟨s.data.filter (fun c => c ≠ ',')⟩

/-- Digit-list to natural number (most significant first). -/
def digitsToNat (l : List Char) : ℕ :=
  l.foldl (fun a c => 10 * a + (c.toNat - 48)) 0

/-- Exponent suffix of a Python float literal: optional sign, then digits.
Returns the signed exponent. -/
def pyExpVal (t : List Char) : Option ℤ :=
  let p : Bool × List Char :=
    match t with
    | '+' :: u => (false, u)
    | '-' :: u => (true, u)
    | _ => (false, t)
  let ed := p.2.takeWhile Char.isDigit
  if ed.isEmpty || !(p.2.drop ed.length).isEmpty then none
  else some (if p.1 then -(digitsToNat ed : ℤ) else (digitsToNat ed : ℤ))

/-- Fold an exponent into an exact decimal `(m, d)` of value `m / 10^d`. -/
def applyExp (m : ℤ) (d : ℕ) (e : ℤ) : ℤ × ℕ :=
  match e with
  | .ofNat k => (m * ((10 ^ k : ℕ) : ℤ), d)
  | .negSucc k => (m, d + (k + 1))

/-- Core of Python `float(str)` on a stripped character list: optional sign,
decimal digits with at most one dot (at least one digit), optional exponent.
Returns the exact value as `(m, d)` with value `m / 10^d`. -/
def pyFloatCore (l : List Char) : Option (ℤ × ℕ) :=
  let p : ℤ × List Char :=
    match l with
    | '+' :: t => (1, t)
    | '-' :: t => (-1, t)
    | _ => (1, l)
  let ip := p.2.takeWhile Char.isDigit
  let r1 := p.2.drop ip.length
  let q : List Char × List Char :=
    match r1 with
    | '.' :: t => (t.takeWhile Char.isDigit, t.drop (t.takeWhile Char.isDigit).length)
    | _ => ([], r1)
  if ip.isEmpty && q.1.isEmpty then none
  else
    let m : ℤ := p.1 * (digitsToNat (ip ++ q.1) : ℤ)
    match q.2 with
    | [] => some (m, q.1.length)
    | 'e' :: t => (pyExpVal t).map (applyExp m q.1.length)
    | 'E' :: t => (pyExpVal t).map (applyExp m q.1.length)
    | _ => none

/-- Model of Python `float(s)` for finite decimal literals (`float` itself
strips surrounding whitespace). -/
def pyFloatDec (s : String) : Option (ℤ × ℕ) :=
  pyFloatCore (pyStrip s).data

/-- Round `a / b` (with `b > 0`) to the nearest integer, ties to even —
Python `round` on the exact value. -/
def divRoundHalfEven (a b : ℤ) : ℤ :=
  let q := Int.ediv a b
  let r := Int.emod a b
  if 2 * r < b then q
  else if b < 2 * r then q + 1
  else if Int.emod q 2 = 0 then q else q + 1

/-- Model of Python `round(x, 2)` on the exact decimal `(m, d)`, producing
integer hundredths. -/
def pyRound2 (v : ℤ × ℕ) : ℤ :=
  divRoundHalfEven (v.1 * 100) ((10 ^ v.2 : ℕ) : ℤ)

/-- Model of `safe_float` from the source: `None`/empty input gives `None`; otherwise
strip, remove commas, parse as a decimal and round to 2 places; any parse
failure gives `None`.  The result is in integer hundredths. -/
def safe_float (value : Option String) : Option ℤ :=
  match value with
  | none => none
  | some s =>
      if pyStrip s = "" then none
      else (pyFloatDec (removeCommas (pyStrip s))).map pyRound2

example : safe_float (some "1,234.5") = some 123450 := by decide
example : safe_float (some "") = none := by decide
example : safe_float (some "   ") = none := by decide
example : safe_float (some "abc") = none := by decide
example : safe_float (some "3.14159") = some 314 := by decide
example : safe_float none = none := by decide
example : safe_float (some "52") = some 5200 := by decide
example : safe_float (some "2.675") = some 268 := by decide
example : safe_float (some "1e2") = some 10000 := by decide

/-- Characters matched by the regex class `[\d,.]` (digits, comma, dot). -/
def isNumRunChar (c : Char) : Bool :=
  c.isDigit || c = ',' || c = '.'

/-- Model of Python `re.match(r"^([\d,.]+)\s*(.*)$", s)`: the leading run of
`[\d,.]` characters (group 1), then a whitespace run, then the rest (group 2).
`.` does not match a newline and `$` also matches just before one final
trailing newline, so the match fails when a newline is followed by further
text; a single trailing newline is left out of group 2. -/
def reMatchZ (s : String) : Option (String × String) :=
  let g1 := s.data.takeWhile isNumRunChar
  if g1.isEmpty then none
  else
    let r := s.data.drop g1.length
    let rr := r.drop (r.takeWhile isPySpace).length
    let g2 := if rr.getLast? = some '\n' then rr.dropLast else rr
    if g2.contains '\n' then none else some (⟨g1⟩, ⟨g2⟩)

/-- Model of Python `re.match(r"^([\d,.]+)", s)`: the leading `[\d,.]` run. -/
def leadNumRun (s : String) : Option String :=
  let g1 := s.data.takeWhile isNumRunChar
  if g1.isEmpty then none else some ⟨g1⟩

/-- A raw API item, seen through the fields `parse_food_item` and the download
loop read (`item.get(...)`; `none` is an absent key).  The API returns only
string values for these fields. -/
structure RawItem where
  FOOD_CD : Option String := none
  FOOD_NM_KR : Option String := none
  AMT_NUM1 : Option String := none
  AMT_NUM3 : Option String := none
  AMT_NUM4 : Option String := none
  AMT_NUM6 : Option String := none
  AMT_NUM7 : Option String := none
  AMT_NUM8 : Option String := none
  AMT_NUM13 : Option String := none
  Z10500 : Option String := none
  SERVING_SIZE : Option String := none
  FOOD_CAT1_NM : Option String := none
  MAKER_NM : Option String := none
  DB_CLASS_CM : Option String := none
  deriving DecidableEq

/-- A normalized food record (the dict built by `parse_food_item`).
Numeric fields are in integer hundredths. -/
structure Food where
  foodCd : String
  name : String
  calories : ℤ
  protein : Option ℤ
  fat : Option ℤ
  carbohydrates : Option ℤ
  sodium : Option ℤ
  fiber : Option ℤ
  sugar : Option ℤ
  servingSize : Option ℤ
  servingUnit : Option String
  groupName : Option String
  makerName : Option String
  deriving DecidableEq

/-- The serving-size branch of `parse_food_item` on the `Z10500` field:
when the field is truthy and non-blank, match `^([\d,.]+)\s*(.*)$` against
its stripped value; group 1 goes through `safe_float`, the stripped group 2
becomes the unit when non-empty. -/
def servingFromZ (z : Option String) : Option ℤ × Option String :=
  match z with
  | none => (none, none)
  | some zf =>
      if zf ≠ "" ∧ pyStrip zf ≠ "" then
        match reMatchZ (pyStrip zf) with
        | some g =>
            let u := pyStrip g.2
            (safe_float (some g.1), if u ≠ "" then some u else none)
        | none => (none, none)
      else (none, none)

/-- The serving-size fallback of `parse_food_item` on the `SERVING_SIZE`
field: when the field is truthy, the leading `[\d,.]` run of its stripped
value goes through `safe_float`; no unit is produced. -/
def servingFallback (srv : Option String) : Option ℤ :=
  match srv with
  | none => none
  | some sf =>
      if sf ≠ "" then
        match leadNumRun (pyStrip sf) with
        | some g1 => safe_float (some g1)
        | none => none
      else none

/-- Model of `parse_food_item` from the source: drop the item when the stripped food
code or name is empty or the calories do not parse; otherwise build the
normalized record, extracting the serving size from `Z10500` with a
fallback to `SERVING_SIZE`. -/
def parse_food_item (item : RawItem) : Option Food :=
  let food_cd := pyStrip (item.FOOD_CD.getD "")
  let food_nm := pyStrip (item.FOOD_NM_KR.getD "")
  if food_cd = "" ∨ food_nm = "" then none
  else
    match safe_float item.AMT_NUM1 with
    | none => none
    | some calories =>
        let zres := servingFromZ item.Z10500
        let serving_size :=
          match zres.1 with
          | some q => some q
          | none => servingFallback item.SERVING_SIZE
        let group := pyStrip (item.FOOD_CAT1_NM.getD "")
        some {
          foodCd := food_cd
          name := food_nm
          calories := calories
          protein := safe_float item.AMT_NUM3
          fat := safe_float item.AMT_NUM4
          carbohydrates := safe_float item.AMT_NUM6
          sodium := safe_float item.AMT_NUM13
          fiber := safe_float item.AMT_NUM8
          sugar := safe_float item.AMT_NUM7
          servingSize := serving_size
          servingUnit := zres.2
          groupName := if group = "" then none else some group
          makerName :=
            match item.MAKER_NM with
            | none => none
            | some m =>
                if m ≠ "" ∧ pyStrip m ≠ "None" then
                  if pyStrip m = "" then none else some (pyStrip m)
                else none }

example : servingFromZ (some "900.000g") = (some 90000, some "g") := by decide
example : servingFromZ (some "500") = (some 50000, none) := by decide
example : servingFromZ (some "abc") = (none, none) := by decide
example : servingFallback (some "50") = some 5000 := by decide
example : parse_food_item {} = none := by decide
example :
    parse_food_item { FOOD_CD := some "A1", FOOD_NM_KR := some "Apple", AMT_NUM1 := some "52" } =
      some { foodCd := "A1", name := "Apple", calories := 5200, protein := none, fat := none,
             carbohydrates := none, sodium := none, fiber := none, sugar := none,
             servingSize := none, servingUnit := none, groupName := none, makerName := none } := by
  decide

/-- A record as `deduplicate_foods` sees it: the function reads only
`food.get("foodCd")` (absent key modelled as `none`); `tag` stands for the
rest of the dict, so that distinct records with equal keys stay distinct. -/
structure DRec where
  foodCd : Option String
  tag : ℕ
  deriving DecidableEq

/-- The loop of `deduplicate_foods` with its running `seen` set: keep a
record only when its `foodCd` is truthy (present and non-empty) and not yet
seen. -/
def dedupeGo (seen : List String) : List DRec → List DRec
  | [] => []
  | f :: t =>
      match f.foodCd with
      | some s => if s ≠ "" ∧ s ∉ seen then f :: dedupeGo (s :: seen) t else dedupeGo seen t
      | none => dedupeGo seen t

/-- Model of `deduplicate_foods` from the source: single pass, first occurrence per
`foodCd` wins, falsy keys are dropped. -/
def deduplicate_foods (foods : List DRec) : List DRec :=
  dedupeGo [] foods

example :
    deduplicate_foods [⟨some "a", 0⟩, ⟨some "b", 1⟩, ⟨some "a", 2⟩, ⟨none, 3⟩, ⟨some "", 4⟩] =
      [⟨some "a", 0⟩, ⟨some "b", 1⟩] := by decide

/-- The `body.get("items", [])` value: a list, a single mapping (normalized
to a one-element list), absent (default `[]`), or any other shape
(normalized to `[]`). -/
inductive ItemsVal
  | list (l : List RawItem)
  | single (i : RawItem)
  | absent
  | other
  deriving DecidableEq

/-- One API page, seen through the fields `download_all_foods` reads:
`header.resultCode` (default `""` when absent), `body.totalCount`
(`none` = absent, read with default `0`), and the raw `items` value. -/
structure RawPage where
  resultCode : String
  totalCount : Option ℕ
  itemsField : ItemsVal
  deriving DecidableEq

/-- The items normalization in the loop: a dict becomes a one-element list,
a non-list becomes `[]`. -/
def itemsToList : ItemsVal → List RawItem
  | .list l => l
  | .single i => [i]
  | .absent => []
  | .other => []

/-- Outcome of one `fetch_page` call: a decoded page, or an exception
(TransportError / AuthError / any unexpected failure). -/
inductive FetchOutcome
  | ok (page : RawPage)
  | exn
  deriving DecidableEq

/-- Observable events of a run: an HTTP request for a page number, an
integer-second sleep (60 for rate limit, 5 or 5·retry for errors), or the
fixed 0.2-unit inter-page courtesy pause (`RATE_LIMIT_DELAY`). -/
inductive Event
  | request (pageNo : ℕ)
  | sleep (seconds : ℕ)
  | pagePause
  deriving DecidableEq

/-- How a run ended: result code `"03"` (no more data), the post-page
completion check, retry exhaustion on exceptions (abort), or the outcome
script ran out (the run would keep fetching). -/
inductive RunExit
  | done03
  | doneComplete
  | aborted
  | scriptEnded
  deriving DecidableEq

/-- Result of a run: chronological event trace, accumulated records, exit. -/
structure RunResult where
  events : List Event
  foods : List Food
  exit : RunExit
  deriving DecidableEq

/-- Prefix extra events onto a run result. -/
def prependE (es : List Event) (r : RunResult) : RunResult :=
  { r with events := es ++ r.events }

/-- The per-item loop body on a successful page: skip non-representative
items (`DB_CLASS_CM ≠ "01"`) unless `include_all`, then normalize and keep
non-`None` results.  Returns the page's kept records and skipped count. -/
def processItems (includeAll : Bool) (items : List RawItem) : List Food × ℕ :=
  items.foldl
    (fun acc it =>
      if includeAll = false ∧ it.DB_CLASS_CM ≠ some "01" then (acc.1, acc.2 + 1)
      else
        match parse_food_item it with
        | some f => (acc.1 ++ [f], acc.2)
        | none => acc)
    ([], 0)

/-- The nested fetch/retry loop of `download_all_foods`, one recursive step
per `fetch_page` call.  State: remaining fetch outcomes, accumulated
records, current page number, known total count, fetched and skipped
counters, per-page retry counter.  Mirrors the source exactly: `"03"`
returns at once; `"22"` sleeps 60 and increments the retry counter; other
non-`"00"` codes increment the counter and sleep 5; when the incremented
counter reaches `max_retries = 3` on those paths the inner loop exits and
the next page begins; an exception increments the counter, sleeps
`5 · counter` and retries while the counter is below 3, else returns the
accumulated records; a successful page processes items, then returns when
the page was empty or enough items were fetched, else advances the page. -/
def runFrom (includeAll : Bool) (script : List FetchOutcome) (allFoods : List Food)
    (pageNo : ℕ) (totalCount : Option ℕ) (fetchedCount skippedCount retryCount : ℕ) :
    RunResult :=
  match script with
  | [] => ⟨[], allFoods, .scriptEnded⟩
  | .exn :: rest =>
      if retryCount + 1 < 3 then
        prependE [.request pageNo, .sleep (5 * (retryCount + 1))]
          (runFrom includeAll rest allFoods pageNo totalCount fetchedCount skippedCount
            (retryCount + 1))
      else ⟨[.request pageNo], allFoods, .aborted⟩
  | .ok page :: rest =>
      if page.resultCode ≠ "00" then
        if page.resultCode = "03" then ⟨[.request pageNo], allFoods, .done03⟩
        else if page.resultCode = "22" then
          if retryCount + 1 < 3 then
            prependE [.request pageNo, .sleep 60]
              (runFrom includeAll rest allFoods pageNo totalCount fetchedCount skippedCount
                (retryCount + 1))
          else
            prependE [.request pageNo, .sleep 60, .pagePause]
              (runFrom includeAll rest allFoods (pageNo + 1) totalCount fetchedCount
                skippedCount 0)
        else
          if retryCount + 1 < 3 then
            prependE [.request pageNo, .sleep 5]
              (runFrom includeAll rest allFoods pageNo totalCount fetchedCount skippedCount
                (retryCount + 1))
          else
            prependE [.request pageNo, .sleep 5, .pagePause]
              (runFrom includeAll rest allFoods (pageNo + 1) totalCount fetchedCount
                skippedCount 0)
      else
        let total :=
          match totalCount with
          | some t => t
          | none => page.totalCount.getD 0
        let items := itemsToList page.itemsField
        let fetched := fetchedCount + items.length
        let pr := processItems includeAll items
        let foods := allFoods ++ pr.1
        if items = [] ∨ total ≤ fetched then ⟨[.request pageNo], foods, .doneComplete⟩
        else
          prependE [.request pageNo, .pagePause]
            (runFrom includeAll rest foods (pageNo + 1) (some total) fetched
              (skippedCount + pr.2) 0)

/-- Model of `download_all_foods` from the source, driven by a script of fetch
outcomes: start in `FETCHING` at page 1 with empty accumulators. -/
def download_all_foods (includeAll : Bool) (script : List FetchOutcome) : RunResult :=
  runFrom includeAll script [] 1 none 0 0 0

/-- The page numbers requested during a run, in order. -/
def requestedPages (r : RunResult) : List ℕ :=
  r.events.filterMap (fun e =>
    match e with
    | .request n => some n
    | _ => none)

/-- C1 (amended): a page with result code `"22"` (rate limited) makes the
controller sleep 60 units and retry the same page number — but, contrary to
the original claim, the rate-limit retry does increment the bounded per-page
retry counter, and once the incremented counter reaches the 3-attempt
ceiling the inner loop exits and the controller advances to the next page
after the inter-page pause. -/
theorem c1_rate_limit_retry (includeAll : Bool) (rest : List FetchOutcome) (page : RawPage)
    (allFoods : List Food) (pageNo : ℕ) (totalCount : Option ℕ)
    (fetchedCount skippedCount retryCount : ℕ) (h22 : page.resultCode = "22") :
    runFrom includeAll (.ok page :: rest) allFoods pageNo totalCount fetchedCount
      skippedCount retryCount =
      if retryCount + 1 < 3 then
        prependE [.request pageNo, .sleep 60]
          (runFrom includeAll rest allFoods pageNo totalCount fetchedCount skippedCount
            (retryCount + 1))
      else
        prependE [.request pageNo, .sleep 60, .pagePause]
          (runFrom includeAll rest allFoods (pageNo + 1) totalCount fetchedCount
            skippedCount 0) := by
  obtain ⟨code, tcnt, itf⟩ := page
  simp only [RawPage.resultCode] at h22
  subst h22
  simp [runFrom]

/-- witness for c1_rate_limit_retry -/
theorem c1_witness :
    runFrom false [.ok ⟨"22", none, .absent⟩, .ok ⟨"03", none, .absent⟩] [] 1 none 0 0 0 =
      ⟨[.request 1, .sleep 60, .request 1], [], .done03⟩ :=
  (c1_rate_limit_retry false [.ok ⟨"03", none, .absent⟩] ⟨"22", none, .absent⟩ [] 1
    none 0 0 0 (by decide)).trans (by decide)

/-- The fetch-outcome script of `c1_counterexample`: page 1 is rate limited
three times in a row, then the next request is answered with `"03"`. -/
def c1script : List FetchOutcome :=
  [.ok ⟨"22", none, .absent⟩, .ok ⟨"22", none, .absent⟩, .ok ⟨"22", none, .absent⟩,
   .ok ⟨"03", none, .absent⟩]

/-- C1 counterexample: under three consecutive rate-limit responses for
page 1, the fourth request is for page 2 — the rate-limit retry consumed the
bounded retry counter and the page number advanced, contradicting the claim
that a `"22"` retry keeps the page number fixed and does not consume a
position in the retry counter. -/
theorem c1_counterexample :
    download_all_foods false c1script =
      ⟨[.request 1, .sleep 60, .request 1, .sleep 60, .request 1, .sleep 60, .pagePause,
        .request 2], [], .done03⟩ ∧
    requestedPages (download_all_foods false c1script) ≠ [1, 1, 1, 1] := by
  decide

/-- C2 (amended): a page with a result code other than `"00"`, `"03"` and
`"22"` makes the controller increment the retry counter, sleep 5 units and
retry the same page — but, contrary to the original claim, exhausting the
3-attempt ceiling on this path does not abort the run: the inner loop exits
and the controller advances to the next page after the inter-page pause,
continuing the run (only the exception path of `c3_exception_retry`
aborts). -/
theorem c2_protocol_error_retry (includeAll : Bool) (rest : List FetchOutcome) (page : RawPage)
    (allFoods : List Food) (pageNo : ℕ) (totalCount : Option ℕ)
    (fetchedCount skippedCount retryCount : ℕ) (h00 : page.resultCode ≠ "00")
    (h03 : page.resultCode ≠ "03") (h22 : page.resultCode ≠ "22") :
    runFrom includeAll (.ok page :: rest) allFoods pageNo totalCount fetchedCount
      skippedCount retryCount =
      if retryCount + 1 < 3 then
        prependE [.request pageNo, .sleep 5]
          (runFrom includeAll rest allFoods pageNo totalCount fetchedCount skippedCount
            (retryCount + 1))
      else
        prependE [.request pageNo, .sleep 5, .pagePause]
          (runFrom includeAll rest allFoods (pageNo + 1) totalCount fetchedCount
            skippedCount 0) := by
  simp [runFrom, h00, h03, h22]

/-- witness for c2_protocol_error_retry -/
theorem c2_witness :
    runFrom false [.ok ⟨"99", none, .absent⟩, .ok ⟨"03", none, .absent⟩] [] 1 none 0 0 0 =
      ⟨[.request 1, .sleep 5, .request 1], [], .done03⟩ :=
  (c2_protocol_error_retry false [.ok ⟨"03", none, .absent⟩] ⟨"99", none, .absent⟩ [] 1
    none 0 0 0 (by decide) (by decide) (by decide)).trans (by decide)

/-- The fetch-outcome script of `c2_counterexample`: page 1 answers with the
unknown code `"99"` three times, then the next request is answered `"03"`. -/
def c2script : List FetchOutcome :=
  [.ok ⟨"99", none, .absent⟩, .ok ⟨"99", none, .absent⟩, .ok ⟨"99", none, .absent⟩,
   .ok ⟨"03", none, .absent⟩]

/-- C2 counterexample: after exhausting the 3-attempt ceiling on a page that
keeps answering with the protocol-error code `"99"`, the run does not
transition to `ABORTED`: it advances to page 2 and continues (here ending in
`DONE` via `"03"`), contradicting the claimed abort-on-exhaustion. -/
theorem c2_counterexample :
    download_all_foods false c2script =
      ⟨[.request 1, .sleep 5, .request 1, .sleep 5, .request 1, .sleep 5, .pagePause,
        .request 2], [], .done03⟩ ∧
    (download_all_foods false c2script).exit ≠ .aborted := by
  decide

/-- C3: when `fetch_page` raises (transport-level or unexpected failure) the
retry counter is incremented; while the incremented counter is below the
3-attempt maximum the controller sleeps `5 · retryCount` units and retries
the same page, and when the maximum is reached the run aborts, returning
exactly the records accumulated before the failing page. -/
theorem c3_exception_retry (includeAll : Bool) (rest : List FetchOutcome)
    (allFoods : List Food) (pageNo : ℕ) (totalCount : Option ℕ)
    (fetchedCount skippedCount retryCount : ℕ) :
    runFrom includeAll (.exn :: rest) allFoods pageNo totalCount fetchedCount
      skippedCount retryCount =
      if retryCount + 1 < 3 then
        prependE [.request pageNo, .sleep (5 * (retryCount + 1))]
          (runFrom includeAll rest allFoods pageNo totalCount fetchedCount skippedCount
            (retryCount + 1))
      else ⟨[.request pageNo], allFoods, .aborted⟩ := by
  simp [runFrom]

/-- C7: after a successful (`"00"`) page is processed, the run ends in
`DONE` with the accumulated records exactly when the page yielded zero raw
items or the cumulative fetched counter reached the known total; otherwise
the page number advances by one (after the inter-page pause) and fetching
continues. -/
theorem c7_termination (includeAll : Bool) (rest : List FetchOutcome) (page : RawPage)
    (allFoods : List Food) (pageNo : ℕ) (totalCount : Option ℕ)
    (fetchedCount skippedCount retryCount : ℕ) (h00 : page.resultCode = "00") :
    ((itemsToList page.itemsField = [] ∨
        (match totalCount with
          | some t => t
          | none => page.totalCount.getD 0) ≤
          fetchedCount + (itemsToList page.itemsField).length) →
      runFrom includeAll (.ok page :: rest) allFoods pageNo totalCount fetchedCount
        skippedCount retryCount =
        ⟨[.request pageNo],
          allFoods ++ (processItems includeAll (itemsToList page.itemsField)).1,
          .doneComplete⟩) ∧
    (¬(itemsToList page.itemsField = [] ∨
        (match totalCount with
          | some t => t
          | none => page.totalCount.getD 0) ≤
          fetchedCount + (itemsToList page.itemsField).length) →
      runFrom includeAll (.ok page :: rest) allFoods pageNo totalCount fetchedCount
        skippedCount retryCount =
        prependE [.request pageNo, .pagePause]
          (runFrom includeAll rest
            (allFoods ++ (processItems includeAll (itemsToList page.itemsField)).1)
            (pageNo + 1)
            (some (match totalCount with
              | some t => t
              | none => page.totalCount.getD 0))
            (fetchedCount + (itemsToList page.itemsField).length)
            (skippedCount + (processItems includeAll (itemsToList page.itemsField)).2) 0)) := by
  obtain ⟨code, tcnt, itf⟩ := page
  simp only [RawPage.resultCode] at h00
  subst h00
  constructor
  · intro h
    simp [runFrom, h]
  · intro h
    simp [runFrom, h]

/-- witness for c7_termination: a `"00"` page with zero items ends the run
although the fetched counter (0) is far below the reported total (100). -/
theorem c7_witness :
    runFrom false [.ok ⟨"00", some 100, .absent⟩] [] 1 none 0 0 0 =
      ⟨[.request 1], [], .doneComplete⟩ :=
  ((c7_termination false [] ⟨"00", some 100, .absent⟩ [] 1 none 0 0 0 (by decide)).1
    (by decide)).trans (by decide)
/-- Predicate `hasCd s r`: the record's `foodCd` is the (present) key `s`. -/
def hasCd (s : String) (r : DRec) : Bool :=
  r.foodCd = some s

/-- The present `foodCd` keys of a record list, in order. -/
def dKeys (l : List DRec) : List String :=
  l.filterMap DRec.foodCd

theorem dedupeGo_sublist (seen : List String) (l : List DRec) :
    List.Sublist (dedupeGo seen l) l := by
  induction l generalizing seen with
  | nil => simp [dedupeGo]
  | cons f t ih =>
      cases hcd : f.foodCd with
      | none => exact List.Sublist.cons f (by simpa [dedupeGo, hcd] using ih seen)
      | some s =>
          simp only [dedupeGo, hcd]
          by_cases hk : s ≠ "" ∧ s ∉ seen
          · rw [if_pos hk]
            exact List.Sublist.cons₂ f (ih (s :: seen))
          · rw [if_neg hk]
            exact List.Sublist.cons f (ih seen)

theorem mem_dedupeGo {seen : List String} {l : List DRec} {r : DRec}
    (h : r ∈ dedupeGo seen l) : ∃ s, r.foodCd = some s ∧ s ≠ "" ∧ s ∉ seen := by
  induction l generalizing seen with
  | nil => simp [dedupeGo] at h
  | cons f t ih =>
      cases hcd : f.foodCd with
      | none =>
          simp only [dedupeGo, hcd] at h
          exact ih h
      | some s =>
          simp only [dedupeGo, hcd] at h
          by_cases hk : s ≠ "" ∧ s ∉ seen
          · rw [if_pos hk] at h
            rcases List.mem_cons.mp h with h1 | h2
            · subst h1
              exact ⟨s, hcd, hk.1, hk.2⟩
            · obtain ⟨u, hu, hune, huns⟩ := ih h2
              exact ⟨u, hu, hune, fun hm => huns (List.mem_cons_of_mem _ hm)⟩
          · rw [if_neg hk] at h
            exact ih h

theorem countP_dedupeGo_of_mem (s : String) (seen : List String) (l : List DRec)
    (hs : s ∈ seen) : (dedupeGo seen l).countP (hasCd s) = 0 := by
  induction l generalizing seen with
  | nil => simp [dedupeGo]
  | cons f t ih =>
      cases hcd : f.foodCd with
      | none =>
          simp only [dedupeGo, hcd]
          exact ih seen hs
      | some u =>
          simp only [dedupeGo, hcd]
          by_cases hk : u ≠ "" ∧ u ∉ seen
          · rw [if_pos hk, List.countP_cons]
            have hf : hasCd s f = false := by
              simp only [hasCd, hcd]
              simp only [Option.some.injEq, decide_eq_false_iff_not]
              intro h
              exact hk.2 (h ▸ hs)
            rw [hf]
            simp only [Bool.false_eq_true, if_false, Nat.add_zero]
            exact ih (u :: seen) (List.mem_cons_of_mem _ hs)
          · rw [if_neg hk]
            exact ih seen hs

theorem countP_dedupeGo (s : String) (seen : List String) (l : List DRec)
    (hne : s ≠ "") (hs : s ∉ seen) :
    (dedupeGo seen l).countP (hasCd s) = if l.any (hasCd s) then 1 else 0 := by
  induction l generalizing seen with
  | nil => simp [dedupeGo]
  | cons f t ih =>
      cases hcd : f.foodCd with
      | none =>
          have hf : hasCd s f = false := by simp [hasCd, hcd]
          simp only [dedupeGo, hcd, List.any_cons, hf, Bool.false_or]
          exact ih seen hs
      | some u =>
          by_cases hus : u = s
          · subst hus
            have hf : hasCd u f = true := by simp [hasCd, hcd]
            simp only [dedupeGo, hcd]
            rw [if_pos ⟨hne, hs⟩, List.countP_cons, hf]
            rw [countP_dedupeGo_of_mem u (u :: seen) t (List.mem_cons_self u seen)]
            simp [List.any_cons, hf]
          · have hf : hasCd s f = false := by simp [hasCd, hcd, hus]
            simp only [dedupeGo, hcd, List.any_cons, hf, Bool.false_or]
            by_cases hk : u ≠ "" ∧ u ∉ seen
            · rw [if_pos hk, List.countP_cons, hf]
              simp only [Bool.false_eq_true, if_false, Nat.add_zero]
              exact ih (u :: seen) (by simp [hs, Ne.symm (Ne.intro hus)])
            · rw [if_neg hk]
              exact ih seen hs

theorem find?_dedupeGo (s : String) (seen : List String) (l : List DRec)
    (hne : s ≠ "") (hs : s ∉ seen) :
    (dedupeGo seen l).find? (hasCd s) = l.find? (hasCd s) := by
  induction l generalizing seen with
  | nil => simp [dedupeGo]
  | cons f t ih =>
      cases hcd : f.foodCd with
      | none =>
          have hf : ¬ hasCd s f = true := by simp [hasCd, hcd]
          simp only [dedupeGo, hcd]
          rw [List.find?_cons_of_neg _ hf]
          exact ih seen hs
      | some u =>
          by_cases hus : u = s
          · subst hus
            have hf : hasCd u f = true := by simp [hasCd, hcd]
            simp only [dedupeGo, hcd]
            rw [if_pos ⟨hne, hs⟩, List.find?_cons_of_pos _ hf, List.find?_cons_of_pos _ hf]
          · have hf : ¬ hasCd s f = true := by simp [hasCd, hcd, hus]
            simp only [dedupeGo, hcd]
            rw [List.find?_cons_of_neg _ hf]
            by_cases hk : u ≠ "" ∧ u ∉ seen
            · rw [if_pos hk, List.find?_cons_of_neg _ hf]
              exact ih (u :: seen) (by simp [hs, Ne.symm (Ne.intro hus)])
            · rw [if_neg hk]
              exact ih seen hs

theorem dKeys_dedupeGo_nodup (seen : List String) (l : List DRec) :
    (dKeys (dedupeGo seen l)).Nodup := by
  induction l generalizing seen with
  | nil => simp [dedupeGo, dKeys]
  | cons f t ih =>
      cases hcd : f.foodCd with
      | none =>
          simp only [dedupeGo, hcd]
          exact ih seen
      | some u =>
          simp only [dedupeGo, hcd]
          by_cases hk : u ≠ "" ∧ u ∉ seen
          · rw [if_pos hk]
            simp only [dKeys, List.filterMap_cons, hcd]
            rw [List.nodup_cons]
            refine ⟨?_, ih (u :: seen)⟩
            intro hmem
            obtain ⟨r, hrmem, hru⟩ := List.mem_filterMap.mp hmem
            obtain ⟨v, hv, hvne, hvs⟩ := mem_dedupeGo hrmem
            rw [hv] at hru
            obtain rfl := Option.some.inj hru
            exact hvs (List.mem_cons_self v seen)
          · rw [if_neg hk]
            exact ih seen

theorem dedupeGo_fix (seen : List String) (l : List DRec)
    (hmem : ∀ r ∈ l, ∃ s, r.foodCd = some s ∧ s ≠ "" ∧ s ∉ seen)
    (hnd : (dKeys l).Nodup) : dedupeGo seen l = l := by
  induction l generalizing seen with
  | nil => simp [dedupeGo]
  | cons f t ih =>
      obtain ⟨s, hcd, hne, hns⟩ := hmem f (List.mem_cons_self f t)
      have hkeys : dKeys (f :: t) = s :: dKeys t := by
        simp [dKeys, List.filterMap_cons, hcd]
      rw [hkeys, List.nodup_cons] at hnd
      simp only [dedupeGo, hcd]
      rw [if_pos ⟨hne, hns⟩]
      congr 1
      apply ih (s :: seen) ?_ hnd.2
      intro r hr
      obtain ⟨u, hu, hune, huns⟩ := hmem r (List.mem_cons_of_mem f hr)
      refine ⟨u, hu, hune, ?_⟩
      intro hmm
      rcases List.mem_cons.mp hmm with h1 | h2
      · subst h1
        exact hnd.1 (List.mem_filterMap.mpr ⟨r, hr, hu⟩)
      · exact huns h2

/-- C5: deduplication is idempotent, its output is a subsequence of the
input (first-occurrence order preserved), and every non-empty key that
occurs in the input occurs exactly once in the output, represented by the
first input record carrying it. -/
theorem c5_dedupe (l : List DRec) :
    deduplicate_foods (deduplicate_foods l) = deduplicate_foods l ∧
    List.Sublist (deduplicate_foods l) l ∧
    ∀ s : String, s ≠ "" →
      (deduplicate_foods l).countP (hasCd s) = (if l.any (hasCd s) then 1 else 0) ∧
      (deduplicate_foods l).find? (hasCd s) = l.find? (hasCd s) := by
  simp only [deduplicate_foods]
  refine ⟨?_, dedupeGo_sublist [] l, ?_⟩
  · apply dedupeGo_fix
    · intro r hr
      obtain ⟨s, h1, h2, _⟩ := mem_dedupeGo hr
      exact ⟨s, h1, h2, List.not_mem_nil s⟩
    · exact dKeys_dedupeGo_nodup [] l
  · intro s hne
    exact ⟨countP_dedupeGo s [] l hne (List.not_mem_nil s),
      find?_dedupeGo s [] l hne (List.not_mem_nil s)⟩

/-- The input list of `c5_witness`. -/
def c5list : List DRec :=
  [⟨some "a", 0⟩, ⟨some "a", 1⟩, ⟨some "b", 2⟩]

/-- witness for c5_dedupe -/
theorem c5_witness :
    (deduplicate_foods c5list).countP (hasCd "a") = 1 ∧
    (deduplicate_foods c5list).find? (hasCd "a") = some ⟨some "a", 0⟩ := by
  have h := (c5_dedupe c5list).2.2 "a" (by decide)
  exact ⟨h.1.trans (by decide), h.2.trans (by decide)⟩

/-- C10: every record in the output of `deduplicate_foods` has a present,
non-empty `foodCd`; records with an absent or empty key are always dropped
(and the function, being total, cannot error on them). -/
theorem c10_dedupe_keys (l : List DRec) (r : DRec) (h : r ∈ deduplicate_foods l) :
    ∃ s, r.foodCd = some s ∧ s ≠ "" := by
  simp only [deduplicate_foods] at h
  obtain ⟨s, h1, h2, _⟩ := mem_dedupeGo h
  exact ⟨s, h1, h2⟩

/-- witness for c10_dedupe_keys -/
theorem c10_witness :
    ∃ s, (DRec.mk (some "a") 0).foodCd = some s ∧ s ≠ "" :=
  c10_dedupe_keys [⟨some "a", 0⟩, ⟨none, 1⟩, ⟨some "", 2⟩] ⟨some "a", 0⟩ (by decide)
/-- C4: normalization returns `None` exactly when the stripped food code is
empty/absent, the stripped name is empty/absent, or the calories field is
absent/unparseable; when all three are present and valid it returns a
record. -/
theorem c4_normalization_drop (item : RawItem) :
    parse_food_item item = none ↔
      (pyStrip (item.FOOD_CD.getD "") = "" ∨ pyStrip (item.FOOD_NM_KR.getD "") = "" ∨
        safe_float item.AMT_NUM1 = none) := by
  simp only [parse_food_item]
  by_cases h1 : pyStrip (item.FOOD_CD.getD "") = "" ∨ pyStrip (item.FOOD_NM_KR.getD "") = ""
  · rw [if_pos h1]
    exact iff_of_true rfl (h1.imp id Or.inl)
  · rw [if_neg h1]
    push_neg at h1
    cases hc : safe_float item.AMT_NUM1 with
    | none => simp [h1.1, h1.2, hc]
    | some c => simp [h1.1, h1.2, hc]

/-- C8 (amended): the primary serving descriptor `"900.000g"` yields size
`900.00` (in hundredths: `90000`) with unit `"g"`, the descriptor `"500"`
yields size `500.00` with no unit; and for every successfully normalized
item the stored serving unit is whatever the primary `Z10500` branch
produced, while the stored serving size is the primary branch's number when
it parsed, with the `SERVING_SIZE` fallback (numeric only) taken whenever
the primary path produced no number — not only when the primary field is
absent or empty. -/
theorem c8_serving_extraction :
    servingFromZ (some "900.000g") = (some 90000, some "g") ∧
    servingFromZ (some "500") = (some 50000, none) ∧
    ∀ item food, parse_food_item item = some food →
      food.servingUnit = (servingFromZ item.Z10500).2 ∧
      food.servingSize =
        (match (servingFromZ item.Z10500).1 with
          | some q => some q
          | none => servingFallback item.SERVING_SIZE) := by
  refine ⟨by decide, by decide, ?_⟩
  intro item food h
  simp only [parse_food_item] at h
  by_cases h1 : pyStrip (item.FOOD_CD.getD "") = "" ∨ pyStrip (item.FOOD_NM_KR.getD "") = ""
  · rw [if_pos h1] at h
    exact absurd h (by simp)
  · rw [if_neg h1] at h
    cases hc : safe_float item.AMT_NUM1 with
    | none =>
        rw [hc] at h
        exact absurd h (by simp)
    | some c =>
        rw [hc] at h
        obtain rfl := Option.some.inj h
        exact ⟨rfl, rfl⟩

/-- The raw item of `c8_counterexample`: its primary serving descriptor
`Z10500` is the non-empty string `"abc"` (no leading numeric run), and its
secondary field `SERVING_SIZE` is `"50"`. -/
def c8item : RawItem :=
  { FOOD_CD := some "A1", FOOD_NM_KR := some "Apple", AMT_NUM1 := some "52",
    Z10500 := some "abc", SERVING_SIZE := some "50" }

/-- C8 counterexample: although the primary descriptor field is present and
non-empty (`"abc"`), the normalized record's serving size is `50.00`
(hundredths: `5000`), taken from the `SERVING_SIZE` fallback — so the
fallback is not restricted to an absent or empty primary field, refuting
the claim as stated. -/
theorem c8_counterexample :
    c8item.Z10500 = some "abc" ∧ pyStrip "abc" ≠ "" ∧
    (parse_food_item c8item).map Food.servingSize = some (some 5000) := by
  decide

/-- The raw item of `c8_witness`. -/
def c8witem : RawItem :=
  { FOOD_CD := some "A1", FOOD_NM_KR := some "Apple", AMT_NUM1 := some "52",
    Z10500 := some "900.000g" }

/-- The record `parse_food_item` produces for `c8witem`. -/
def c8wfood : Food :=
  { foodCd := "A1", name := "Apple", calories := 5200, protein := none, fat := none,
    carbohydrates := none, sodium := none, fiber := none, sugar := none,
    servingSize := some 90000, servingUnit := some "g", groupName := none,
    makerName := none }

/-- witness for c8_serving_extraction -/
theorem c8_witness :
    c8wfood.servingUnit = (servingFromZ c8witem.Z10500).2 ∧
    c8wfood.servingSize =
      (match (servingFromZ c8witem.Z10500).1 with
        | some q => some q
        | none => servingFallback c8witem.SERVING_SIZE) :=
  c8_serving_extraction.2.2 c8witem c8wfood (by decide)

/-- C9: the safe numeric parse returns `None` for absent input, for
empty/whitespace-only input, and for any parse failure after
comma-stripping; otherwise it returns the comma-stripped decimal rounded to
2 places.  Concretely (values in integer hundredths): `"1,234.5"` parses to
`1234.50`, `""` and `"abc"` to `None`, and `"3.14159"` rounds to `3.14`. -/
theorem c9_safe_float :
    safe_float none = none ∧
    (∀ s : String, pyStrip s = "" → safe_float (some s) = none) ∧
    (∀ s : String, pyFloatDec (removeCommas (pyStrip s)) = none →
      safe_float (some s) = none) ∧
    (∀ s : String, pyStrip s ≠ "" →
      safe_float (some s) = (pyFloatDec (removeCommas (pyStrip s))).map pyRound2) ∧
    safe_float (some "1,234.5") = some 123450 ∧
    safe_float (some "") = none ∧
    safe_float (some "abc") = none ∧
    safe_float (some "3.14159") = some 314 := by
  refine ⟨rfl, ?_, ?_, ?_, by decide, by decide, by decide, by decide⟩
  · intro s h
    simp [safe_float, h]
  · intro s h
    by_cases hs : pyStrip s = "" <;> simp [safe_float, hs, h]
  · intro s h
    simp [safe_float, h]

/-- witness for c9_safe_float -/
theorem c9_witness :
    safe_float (some " ") = none ∧ safe_float (some "x") = none ∧
    safe_float (some "7") = (pyFloatDec (removeCommas (pyStrip "7"))).map pyRound2 :=
  ⟨c9_safe_float.2.1 " " (by decide), c9_safe_float.2.2.1 "x" (by decide),
    c9_safe_float.2.2.2.1 "7" (by decide)⟩

/-- C6: a page with result code `"03"` (no more data) ends the run at once
in the `DONE` state, returning exactly the previously accumulated records;
the page contributes no items. -/
theorem c6_done03 (includeAll : Bool) (rest : List FetchOutcome) (page : RawPage)
    (allFoods : List Food) (pageNo : ℕ) (totalCount : Option ℕ)
    (fetchedCount skippedCount retryCount : ℕ) (h03 : page.resultCode = "03") :
    runFrom includeAll (.ok page :: rest) allFoods pageNo totalCount fetchedCount
      skippedCount retryCount = ⟨[.request pageNo], allFoods, .done03⟩ := by
  obtain ⟨code, tcnt, itf⟩ := page
  simp only [RawPage.resultCode] at h03
  subst h03
  simp [runFrom]

/-- witness for c6_done03 -/
theorem c6_witness :
    runFrom false [.ok ⟨"03", none, .absent⟩] [] 1 none 0 0 0 =
      ⟨[.request 1], [], .done03⟩ :=
  c6_done03 false [] ⟨"03", none, .absent⟩ [] 1 none 0 0 0 (by decide)
